import Mathlib

/-!
Verification of the Deadline Lifecycle Scheduler core
(reminder planner/dispatcher, generated-work state machine,
schedule-sync deduplication engine).

Shallow embedding conventions:
* datetimes are integer seconds (`Int`); `timedelta(hours=h)` is `h * 3600`
  and `timedelta(days=d)` is `d * 86400`;
* nullable columns are `Option`;
* the database session is explicit list-valued state threaded through the
  functions; `session.add` appends to the list;
* external collaborators (GPT text generation, DOCX rendering, the Telegram
  notifier, the calendar fetcher) are passed in as function/`Except` valued
  parameters describing the outcome of the external call.
-/

namespace TeacherApp

/-! ## Data model (models.py) -/

/-- Row of `reminder_settings` (models.py `ReminderSettings`). -/
structure ReminderSettingsRow where
  hours_before : List Int
  is_enabled : Bool
  deriving Repr, DecidableEq

/-- Row of `reminders` (models.py `Reminder`). -/
structure ReminderRow where
  deadline_id : Nat
  hours_before : Int
  send_at : Int
  is_sent : Bool
  message : Option String
  deriving Repr, DecidableEq

/-- Row of `generated_works` (models.py `GeneratedWork`). -/
structure GeneratedWork where
  id : Nat := 0
  deadline_id : Nat := 0
  file_name : Option String := none
  file_path : Option String := none
  content_text : Option String := none
  status : String := "pending"
  scheduled_send_at : Option Int := none
  auto_send : Bool := false
  generated_at : Option Int := none
  confirmed_at : Option Int := none
  sent_at : Option Int := none
  deriving Repr, DecidableEq

/-! ## ReminderPlanner (reminder_service.py `create_reminders_for_deadline`) -/

/-- `hours_before_list = settings.hours_before if settings else [72, 24, 12]`. -/
def effective_offsets (settings : Option ReminderSettingsRow) : List Int :=
  match settings with
  | some s => s.hours_before
  | none => [72, 24, 12]

/-- Body of the planner loop: `send_at = deadline.deadline_date -
timedelta(hours=hours)`; the offset is skipped when `send_at <= now`,
otherwise a `Reminder(deadline_id=…, hours_before=…, send_at=…,
is_sent=False)` row is produced. -/
def plan_row (deadline_id : Nat) (deadline_date : Int) (now : Int)
    (hours : Int) : Option ReminderRow :=
  if deadline_date - hours * 3600 ≤ now then none
  else some { deadline_id := deadline_id, hours_before := hours,
              send_at := deadline_date - hours * 3600, is_sent := false,
              message := none }

/-- `ReminderService.create_reminders_for_deadline`: for each hour-offset in
the user settings (default `[72, 24, 12]` when the settings row is absent),
run the loop body `plan_row`.  Returns the created rows, in list order. -/
def create_reminders_for_deadline (settings : Option ReminderSettingsRow)
    (deadline_id : Nat) (deadline_date : Int) (now : Int) : List ReminderRow :=
  (effective_offsets settings).filterMap (plan_row deadline_id deadline_date now)

/-- One call of the planner against a session: the created rows are added to
the reminders table (`session.add` in the loop). -/
def plan_call (settings : Option ReminderSettingsRow) (deadline_id : Nat)
    (deadline_date : Int) (now : Int) (db : List ReminderRow) : List ReminderRow :=
  db ++ create_reminders_for_deadline settings deadline_id deadline_date now

/-- Predicate picking the reminder rows of one (deadline, hour-offset) pair. -/
def pair_pred (deadline_id : Nat) (h : Int) (r : ReminderRow) : Bool :=
  r.deadline_id == deadline_id && r.hours_before == h

/-! ## Lemmas about the planner -/

theorem plan_row_eq_some {deadline_id : Nat} {deadline_date now hours : Int}
    {r : ReminderRow} (h : plan_row deadline_id deadline_date now hours = some r) :
    r.hours_before = hours ∧ r.deadline_id = deadline_id ∧
      r.send_at = deadline_date - hours * 3600 ∧ r.is_sent = false ∧
      now < deadline_date - hours * 3600 := by
  unfold plan_row at h
  split at h
  · simp at h
  · next hlt =>
    cases h
    exact ⟨rfl, rfl, rfl, rfl, by omega⟩

theorem countP_plan_offsets (deadline_id : Nat) (deadline_date now : Int) (h : Int)
    (hl : List Int) (hnd : hl.Nodup) :
    (hl.filterMap (plan_row deadline_id deadline_date now)).countP
        (fun r => r.hours_before == h) =
      if h ∈ hl ∧ now < deadline_date - h * 3600 then 1 else 0 := by
  induction hl with
  | nil => simp
  | cons a tl ih =>
    have hna : a ∉ tl := (List.nodup_cons.mp hnd).1
    have htl := ih (List.nodup_cons.mp hnd).2
    rw [List.filterMap_cons]
    cases hpa : plan_row deadline_id deadline_date now a with
    | none =>
      have hfa : deadline_date - a * 3600 ≤ now := by
        by_contra hc
        unfold plan_row at hpa
        rw [if_neg hc] at hpa
        exact Option.noConfusion hpa
      rw [htl]
      by_cases hha : h = a
      · subst hha
        have h1 : ¬ (h ∈ tl ∧ now < deadline_date - h * 3600) := fun hc => hna hc.1
        have h2 : ¬ (h ∈ h :: tl ∧ now < deadline_date - h * 3600) := fun hc => by omega
        rw [if_neg h1, if_neg h2]
      · have hiff : (h ∈ tl ∧ now < deadline_date - h * 3600) ↔
            (h ∈ a :: tl ∧ now < deadline_date - h * 3600) := by
          constructor
          · rintro ⟨hm, hlt⟩; exact ⟨List.mem_cons_of_mem a hm, hlt⟩
          · rintro ⟨hm, hlt⟩
            rcases List.mem_cons.mp hm with hm | hm
            · exact absurd hm hha
            · exact ⟨hm, hlt⟩
        exact if_congr hiff rfl rfl
    | some r =>
      obtain ⟨ha1, _, _, _, ha5⟩ := plan_row_eq_some hpa
      rw [List.countP_cons, htl]
      by_cases hha : h = a
      · subst hha
        have hbr : (r.hours_before == h) = true := by rw [ha1]; exact beq_self_eq_true h
        simp only [hbr, if_true]
        have h1 : ¬ (h ∈ tl ∧ now < deadline_date - h * 3600) := fun hc => hna hc.1
        rw [if_neg h1, if_pos ⟨List.mem_cons_self h tl, ha5⟩]
      · have hbr : (r.hours_before == h) = false := by
          rw [ha1, beq_eq_false_iff_ne]
          exact fun hc => hha hc.symm
        simp only [hbr, Bool.false_eq_true, if_false, add_zero]
        rw [htl.symm, htl]
        have hiff : (h ∈ tl ∧ now < deadline_date - h * 3600) ↔
            (h ∈ a :: tl ∧ now < deadline_date - h * 3600) := by
          constructor
          · rintro ⟨hm, hlt⟩; exact ⟨List.mem_cons_of_mem a hm, hlt⟩
          · rintro ⟨hm, hlt⟩
            rcases List.mem_cons.mp hm with hm | hm
            · exact absurd hm hha
            · exact ⟨hm, hlt⟩
        exact if_congr hiff rfl rfl

theorem create_reminders_mem (settings : Option ReminderSettingsRow)
    (deadline_id : Nat) (deadline_date now : Int) :
    ∀ r ∈ create_reminders_for_deadline settings deadline_id deadline_date now,
      r.deadline_id = deadline_id ∧ r.send_at = deadline_date - r.hours_before * 3600 ∧
        r.is_sent = false ∧ now < r.send_at := by
  intro r hr
  rw [create_reminders_for_deadline, List.mem_filterMap] at hr
  obtain ⟨hours, _, hps⟩ := hr
  obtain ⟨h1, h2, h3, h4, h5⟩ := plan_row_eq_some hps
  refine ⟨h2, ?_, h4, ?_⟩
  · rw [h3, h1]
  · rw [h3]; omega

/-! ## Claims C2 and C3 -/

/-- C3, counterexample: the claim quantifies over every offset list, but the
planner creates one row per list element, not per distinct hour-offset.  With
the reachable settings list `[24, 24]` (the settings update paths accept any
integer list and never deduplicate), a single plan call at `now = 0` for a
deadline at instant `360000` creates two Reminder rows for the hour-offset
`24`, not exactly one. -/
theorem c3_counterexample :
    (create_reminders_for_deadline (some ⟨[24, 24], true⟩) 1 360000 0).countP
        (fun r => r.hours_before == 24) = 2 := by decide

/-- C3 (amended): for every deadline, planning instant and offset list with
pairwise-distinct entries (the data model treats the settings as an ordered
set of hour-offsets), the planner creates exactly one Reminder per hour-offset
`h` with `deadline_date - h hours > now`, none for offsets whose `send_at <=
now`, each created row has `send_at = deadline_date - hours_before * 3600`,
belongs to the deadline and is unsent, and when the settings row is absent
the offset list `[72, 24, 12]` is used. -/
theorem c3_planner_exact_amended (settings : Option ReminderSettingsRow)
    (deadline_id : Nat) (deadline_date now : Int)
    (hnd : (effective_offsets settings).Nodup) :
    (∀ h : Int,
        (create_reminders_for_deadline settings deadline_id deadline_date now).countP
            (fun r => r.hours_before == h) =
          if h ∈ effective_offsets settings ∧ now < deadline_date - h * 3600 then 1 else 0)
      ∧ (∀ r ∈ create_reminders_for_deadline settings deadline_id deadline_date now,
          r.deadline_id = deadline_id ∧ r.send_at = deadline_date - r.hours_before * 3600 ∧
            r.is_sent = false ∧ now < r.send_at)
      ∧ create_reminders_for_deadline none deadline_id deadline_date now
          = create_reminders_for_deadline (some ⟨[72, 24, 12], true⟩)
              deadline_id deadline_date now := by
  refine ⟨fun h => ?_, create_reminders_mem _ _ _ _, rfl⟩
  simp only [create_reminders_for_deadline]
  exact countP_plan_offsets deadline_id deadline_date now h _ hnd

/-- Witness for `c3_planner_exact_amended` at a concrete input: absent
settings, deadline at instant `360000`, planned at `0`; the offset `72` is in
the future, so exactly one row for it is created. -/
theorem c3_planner_exact_amended_witness :
    (create_reminders_for_deadline none 1 360000 0).countP
        (fun r => r.hours_before == 72) = 1 := by
  have h := (c3_planner_exact_amended none 1 360000 0 (by decide)).1 72
  rw [h]
  decide

/-- C2, counterexample: `create_reminders_for_deadline` performs no
check-then-insert and the schema has no uniqueness constraint on
(deadline, hour-offset), so two consecutive plan calls for the same deadline
with the same settings leave two Reminder rows for the pair `(1, 72)` —
the claimed bound of at most one is violated. -/
theorem c2_counterexample :
    (plan_call none 1 360000 0 (plan_call none 1 360000 0 [])).countP
        (pair_pred 1 72) = 2 := by decide

/-- C2 (amended): the planner deduplicates nothing: starting from a table with
no row for the pair `(deadline, h)`, two consecutive plan calls with the same
duplicate-free settings leave exactly two Reminder rows for every pair whose
send instant is still in the future — each call re-creates the pair. -/
theorem c2_plan_twice_amended (settings : Option ReminderSettingsRow)
    (deadline_id : Nat) (deadline_date now : Int) (db : List ReminderRow) (h : Int)
    (hnd : (effective_offsets settings).Nodup)
    (hmem : h ∈ effective_offsets settings)
    (hfut : now < deadline_date - h * 3600)
    (hdb : db.countP (pair_pred deadline_id h) = 0) :
    (plan_call settings deadline_id deadline_date now
        (plan_call settings deadline_id deadline_date now db)).countP
      (pair_pred deadline_id h) = 2 := by
  have hc : (create_reminders_for_deadline settings deadline_id deadline_date now).countP
      (pair_pred deadline_id h) = 1 := by
    have heq : (create_reminders_for_deadline settings deadline_id deadline_date now).countP
        (pair_pred deadline_id h)
        = (create_reminders_for_deadline settings deadline_id deadline_date now).countP
            (fun r => r.hours_before == h) := by
      apply List.countP_congr
      intro r hr
      obtain ⟨h1, _, _, _⟩ := create_reminders_mem settings deadline_id deadline_date now r hr
      simp [pair_pred, h1]
    rw [heq]
    simp only [create_reminders_for_deadline]
    rw [countP_plan_offsets deadline_id deadline_date now h _ hnd, if_pos ⟨hmem, hfut⟩]
  unfold plan_call
  rw [List.countP_append, List.countP_append, hdb, hc]

/-- Witness for `c2_plan_twice_amended` at a concrete input. -/
theorem c2_plan_twice_amended_witness :
    (plan_call none 2 360000 0 (plan_call none 2 360000 0 [])).countP
        (pair_pred 2 24) = 2 :=
  c2_plan_twice_amended none 2 360000 0 [] 24 (by decide) (by decide) (by decide)
    (by decide)

/-! ## WorkLifecycleManager: explicit generation (api.py `generate_work_content`)

The endpoint (after the 404 lookup) runs in three phases:
guard on the current status, a first commit setting `status = "generating"`,
then the external generation/rendering calls whose outcome decides the final
commit.  The two external calls are modelled as `Except` values: the outcome
of `WorkGeneratorService.generate_work_content` and of
`WorkGeneratorService.create_document` (which also covers the template
lookup); `create_document` is only reached when content generation succeeded. -/

/-- An HTTPException raised by the endpoint. -/
structure ApiError where
  status_code : Nat
  detail : String
  deriving Repr, DecidableEq

/-- The guard `if work.status not in ("pending", "ready"): raise
HTTPException(400, ...)`. -/
def generate_guard (w : GeneratedWork) : Option ApiError :=
  if w.status ≠ "pending" ∧ w.status ≠ "ready" then
    some { status_code := 400,
           detail := "Cannot generate work with status " ++ w.status }
  else none

/-- The first commit: `work.status = "generating"; await session.commit()`. -/
def generate_start (w : GeneratedWork) : GeneratedWork :=
  { w with status := "generating" }

/-- The try/except body after the `generating` commit: on success the content,
file name, file path, status `ready` and generation timestamp are committed
together; on any exception the status is reset to `pending` (other fields
keep their values) and a 500 error is raised. -/
def generate_finish (content : Except String String)
    (doc : Except String (String × String)) (utcnow : Int)
    (w : GeneratedWork) : GeneratedWork × Option ApiError :=
  match content with
  | .error e => ({ w with status := "pending" },
      some { status_code := 500, detail := "Generation failed: " ++ e })
  | .ok c =>
    match doc with
    | .error e => ({ w with status := "pending" },
        some { status_code := 500, detail := "Generation failed: " ++ e })
    | .ok (fn, fp) =>
      ({ w with content_text := some c, file_name := some fn, file_path := some fp,
                status := "ready", generated_at := some utcnow }, none)

/-- Full endpoint behaviour on a found work: returns the final persisted row
and the error raised, if any. -/
def generate_work_content (content : Except String String)
    (doc : Except String (String × String)) (utcnow : Int)
    (w : GeneratedWork) : GeneratedWork × Option ApiError :=
  match generate_guard w with
  | some e => (w, some e)
  | none => generate_finish content doc utcnow (generate_start w)

/-! ## WorkLifecycleManager: regeneration (bot.py `callback_regenerate_work`) -/

/-- The reset performed by the regenerate callback on a found work (the file
on disk is also deleted, which is outside the data model): status to
`pending`, file name/path, content snapshot and generation timestamp cleared.
No other column is touched. -/
def callback_regenerate_work (w : GeneratedWork) : GeneratedWork :=
  { w with status := "pending", file_name := none, file_path := none,
           content_text := none, generated_at := none }

/-! ## WorkLifecycleManager: driver generation (work_scheduler.py `_generate_work`) -/

/-- `WorkSchedulerService._generate_work`: commits `status = "generating"`,
then runs content generation and document rendering; on success commits
content, file name/path, `ready` and the generation timestamp together; on
any exception commits `status = "pending"` leaving the other fields as they
were. -/
def scheduler_generate_work (content : Except String String)
    (doc : Except String (String × String)) (utcnow : Int)
    (w : GeneratedWork) : GeneratedWork :=
  let w1 := { w with status := "generating" }
  match content with
  | .error _ => { w1 with status := "pending" }
  | .ok c =>
    match doc with
    | .error _ => { w1 with status := "pending" }
    | .ok (fn, fp) =>
      { w1 with content_text := some c, file_name := some fn, file_path := some fp,
                status := "ready", generated_at := some utcnow }

/-- Whether an external call outcome is a failure. -/
def ext_failed {α β : Type} : Except α β → Bool
  | .error _ => true
  | .ok _ => false

/-! ## WorkLifecycleManager: send-check (work_scheduler.py `check_and_send_works`) -/

/-- `GeneratedWork.scheduled_send_at <= now` as evaluated by the SQL filter:
a NULL `scheduled_send_at` satisfies no comparison. -/
def due_at (now : Int) (w : GeneratedWork) : Bool :=
  match w.scheduled_send_at with
  | some t => decide (t ≤ now)
  | none => false

/-- `WorkSchedulerService._send_work`: if the bot is absent or the work has no
stored file path, nothing happens; otherwise the document is sent via the
notifier (`deliver` is the outcome of that external call): on success the row
is committed with `status = "sent"` and `sent_at`; on failure the exception
propagates (caught by the tick loop) and the row is unchanged.  The Bool
result records whether the notifier was invoked. -/
def send_work (bot : Bool) (deliver : GeneratedWork → Bool) (utcnow : Int)
    (w : GeneratedWork) : GeneratedWork × Bool :=
  if bot = false then (w, false)
  else
    match w.file_path with
    | none => (w, false)
    | some _ =>
      if deliver w then ({ w with status := "sent", sent_at := some utcnow }, true)
      else (w, true)

/-- One send-check tick restricted to a single row: the tick first processes
the rows matching `status == "confirmed" AND scheduled_send_at <= now`, then
(after those commits) the rows matching `status == "ready" AND auto_send AND
scheduled_send_at <= now`.  Both queries filter row-locally, so the tick acts
row-wise; the second phase sees the row state left by the first. -/
def send_tick_work (bot : Bool) (deliver : GeneratedWork → Bool) (utcnow now : Int)
    (w : GeneratedWork) : GeneratedWork × Bool :=
  let s1 := if w.status == "confirmed" && due_at now w
    then send_work bot deliver utcnow w else (w, false)
  let s2 := if s1.1.status == "ready" && s1.1.auto_send && due_at now s1.1
    then send_work bot deliver utcnow s1.1 else (s1.1, false)
  (s2.1, s1.2 || s2.2)

/-- `WorkSchedulerService.check_and_send_works` over the whole table: each
row is processed independently; the Bool flags which rows had the notifier
invoked. -/
def check_and_send_works (bot : Bool) (deliver : GeneratedWork → Bool)
    (utcnow now : Int) (works : List GeneratedWork) : List (GeneratedWork × Bool) :=
  works.map (send_tick_work bot deliver utcnow now)

/-! ## Claims C1, C5, C6, C4 -/

/-- C1, counterexample: the endpoint guard is `status not in ("pending",
"ready")`, so a work in status `ready` — a non-`pending` status — is not
rejected: the guard raises nothing and the first commit moves the row to
`generating`.  This refutes the claim that every non-`pending` work is
rejected with an error and that only a `pending` work may enter
`generating`. -/
theorem c1_counterexample :
    generate_guard { status := "ready", file_name := some "old.docx" } = none
      ∧ (generate_start { status := "ready", file_name := some "old.docx" }).status
        = "generating" := by
  exact ⟨rfl, rfl⟩

/-- C1 (amended): the explicit generate action is rejected with an explicit
400 error, leaving the row unchanged, exactly when the status is neither
`pending` nor `ready`; a work in status `pending` or `ready` passes the guard
and is committed to `generating`. -/
theorem c1_generate_guard_amended (content : Except String String)
    (doc : Except String (String × String)) (utcnow : Int) (w : GeneratedWork) :
    (w.status ≠ "pending" ∧ w.status ≠ "ready" →
        generate_work_content content doc utcnow w
          = (w, some { status_code := 400, detail := "Cannot generate work with status " ++ w.status }))
      ∧ (w.status = "pending" ∨ w.status = "ready" →
          generate_guard w = none ∧ (generate_start w).status = "generating") := by
  constructor
  · intro hne
    unfold generate_work_content generate_guard
    rw [if_pos hne]
  · intro hor
    refine ⟨?_, rfl⟩
    unfold generate_guard
    rw [if_neg]
    rintro ⟨h1, h2⟩
    rcases hor with h | h
    · exact h1 h
    · exact h2 h

/-- Witness for `c1_generate_guard_amended`: a `sent` work is rejected
unchanged with a 400, and a `pending` work passes the guard. -/
theorem c1_generate_guard_amended_witness :
    generate_work_content (Except.ok "body") (Except.ok ("a.docx", "p")) 5
        { status := "sent" }
      = ({ status := "sent" }, some { status_code := 400, detail := "Cannot generate work with status " ++ "sent" })
      ∧ generate_guard { status := "pending" } = none := by
  constructor
  · exact (c1_generate_guard_amended (Except.ok "body") (Except.ok ("a.docx", "p")) 5
      { status := "sent" }).1 ⟨by decide, by decide⟩
  · exact ((c1_generate_guard_amended (Except.ok "body") (Except.ok ("a.docx", "p")) 5
      { status := "pending" }).2 (Or.inl rfl)).1

/-- C5, counterexample: the regenerate callback clears the artifact
reference, the content snapshot and the generation timestamp, but not the
confirmation timestamp: a `confirmed` work with `confirmed_at` set keeps it
after regeneration, refuting the part of the claim that both timestamps are
cleared. -/
theorem c5_counterexample :
    (callback_regenerate_work
        { status := "confirmed", file_name := some "a.docx",
          file_path := some "generated/a.docx", content_text := some "text",
          generated_at := some 400, confirmed_at := some 500 }).confirmed_at
      = some 500 := rfl

/-- C5 (amended): for every work in status `ready` or `confirmed`, the
regenerate action clears the artifact reference (file name and path), the
content snapshot and the generation timestamp, and always lands in `pending`
regardless of the starting status; the confirmation timestamp is left
unchanged. -/
theorem c5_regenerate_amended (w : GeneratedWork)
    (hst : w.status = "ready" ∨ w.status = "confirmed") :
    (callback_regenerate_work w).status = "pending"
      ∧ (callback_regenerate_work w).file_name = none
      ∧ (callback_regenerate_work w).file_path = none
      ∧ (callback_regenerate_work w).content_text = none
      ∧ (callback_regenerate_work w).generated_at = none
      ∧ (callback_regenerate_work w).confirmed_at = w.confirmed_at :=
  ⟨rfl, rfl, rfl, rfl, rfl, rfl⟩

/-- Witness for `c5_regenerate_amended` on a concrete `confirmed` work. -/
theorem c5_regenerate_amended_witness :
    (callback_regenerate_work
        { status := "confirmed", confirmed_at := some 7 }).status = "pending"
      ∧ (callback_regenerate_work
          { status := "confirmed", confirmed_at := some 7 }).confirmed_at = some 7 := by
  have h := c5_regenerate_amended { status := "confirmed", confirmed_at := some 7 }
    (Or.inr rfl)
  exact ⟨h.1, h.2.2.2.2.2⟩

/-- C6: when the driver starts generation on a work carrying no artifact
(file name, file path and content unset — the state in which `pending` works
enter the generate-check pool), any failure of the external generation or
document-rendering call resets the status to `pending` and leaves file name,
file path and content unset. -/
theorem c6_generation_failure_resets (content : Except String String)
    (doc : Except String (String × String)) (utcnow : Int) (w : GeneratedWork)
    (hfail : ext_failed content = true ∨ ext_failed doc = true)
    (hfn : w.file_name = none) (hfp : w.file_path = none)
    (hct : w.content_text = none) :
    (scheduler_generate_work content doc utcnow w).status = "pending"
      ∧ (scheduler_generate_work content doc utcnow w).file_name = none
      ∧ (scheduler_generate_work content doc utcnow w).file_path = none
      ∧ (scheduler_generate_work content doc utcnow w).content_text = none := by
  cases content with
  | error e => exact ⟨rfl, hfn, hfp, hct⟩
  | ok c =>
    cases doc with
    | error e => exact ⟨rfl, hfn, hfp, hct⟩
    | ok p =>
      rcases hfail with h | h <;> simp [ext_failed] at h

/-- Witness for `c6_generation_failure_resets`: content generation fails on a
fresh pending work. -/
theorem c6_generation_failure_resets_witness :
    (scheduler_generate_work (Except.error "network") (Except.ok ("a", "b")) 9
        {}).status = "pending"
      ∧ (scheduler_generate_work (Except.error "network") (Except.ok ("a", "b")) 9
          {}).file_name = none
      ∧ (scheduler_generate_work (Except.error "network") (Except.ok ("a", "b")) 9
          {}).file_path = none
      ∧ (scheduler_generate_work (Except.error "network") (Except.ok ("a", "b")) 9
          {}).content_text = none :=
  c6_generation_failure_resets (Except.error "network") (Except.ok ("a", "b")) 9 {}
    (Or.inl rfl) rfl rfl rfl

/-- C4: with the notifier configured and a stored artifact, for every due work
(`scheduled_send_at <= now`) the send-check tick attempts delivery exactly
when the status is `confirmed`, or the status is `ready` with `auto_send`
set; on successful delivery the row flips to `sent` with `sent_at` recorded,
on delivery failure the row is unchanged, and a row on which no delivery was
attempted is unchanged. -/
theorem c4_send_check (deliver : GeneratedWork → Bool) (utcnow now : Int)
    (works : List GeneratedWork) (w : GeneratedWork) (hw : w ∈ works)
    (hfp : w.file_path.isSome = true) (hdue : due_at now w = true) :
    send_tick_work true deliver utcnow now w
        ∈ check_and_send_works true deliver utcnow now works
      ∧ ((send_tick_work true deliver utcnow now w).2 = true ↔
          (w.status = "confirmed" ∨ (w.status = "ready" ∧ w.auto_send = true)))
      ∧ ((send_tick_work true deliver utcnow now w).2 = true → deliver w = true →
          (send_tick_work true deliver utcnow now w).1.status = "sent"
            ∧ (send_tick_work true deliver utcnow now w).1.sent_at = some utcnow)
      ∧ ((send_tick_work true deliver utcnow now w).2 = true → deliver w = false →
          (send_tick_work true deliver utcnow now w).1 = w)
      ∧ ((send_tick_work true deliver utcnow now w).2 = false →
          (send_tick_work true deliver utcnow now w).1 = w) := by
  have hb1 : (("sent" : String) == "ready") = false := by decide
  have hb2 : (("confirmed" : String) == "ready") = false := by decide
  have hb3 : (("ready" : String) == "confirmed") = false := by decide
  have hp1 : ¬ (("ready" : String) = "confirmed") := by decide
  refine ⟨List.mem_map_of_mem _ hw, ?_⟩
  cases hfp0 : w.file_path with
  | none => rw [hfp0] at hfp; simp at hfp
  | some fp =>
    by_cases h1 : w.status = "confirmed"
    · by_cases hd : deliver w = true
      · simp [send_tick_work, send_work, h1, hdue, hfp0, hd, hb1]
      · rw [Bool.not_eq_true] at hd
        simp [send_tick_work, send_work, h1, hdue, hfp0, hd, hb2]
    · by_cases h2 : w.status = "ready" ∧ w.auto_send = true
      · by_cases hd : deliver w = true
        · simp [send_tick_work, send_work, h2.1, h2.2, hdue, hfp0, hd, hb3, hp1]
        · rw [Bool.not_eq_true] at hd
          simp [send_tick_work, send_work, h2.1, h2.2, hdue, hfp0, hd, hb3, hp1]
      · have hnr : ¬ (w.status = "ready" ∧ w.auto_send = true) := h2
        by_cases h3 : w.status = "ready"
        · have hna : w.auto_send = false := by
            rcases Bool.eq_false_or_eq_true w.auto_send with hb | hb
            · exact absurd ⟨h3, hb⟩ hnr
            · exact hb
          simp [send_tick_work, send_work, h3, hna, hdue, hfp0, hb3, hp1]
        · have hbx1 : (w.status == "confirmed") = false := beq_eq_false_iff_ne.mpr h1
          have hbx2 : (w.status == "ready") = false := beq_eq_false_iff_ne.mpr h3
          simp [send_tick_work, send_work, h1, h3, hdue, hfp0, hbx1, hbx2]

/-- Witness for `c4_send_check`: a due `confirmed` work with an artifact is
attempted and, the notifier succeeding, lands in `sent` with `sent_at`. -/
theorem c4_send_check_witness :
    (send_tick_work true (fun _ => true) 99 20
        { status := "confirmed", file_path := some "p",
          scheduled_send_at := some 10 }).2 = true
      ∧ (send_tick_work true (fun _ => true) 99 20
          { status := "confirmed", file_path := some "p",
            scheduled_send_at := some 10 }).1.status = "sent" := by
  have h := c4_send_check (fun _ => true) 99 20
    [{ status := "confirmed", file_path := some "p", scheduled_send_at := some 10 }]
    { status := "confirmed", file_path := some "p", scheduled_send_at := some 10 }
    (List.mem_singleton.mpr rfl) rfl rfl
  have hatt : (send_tick_work true (fun _ => true) 99 20
      { status := "confirmed", file_path := some "p",
        scheduled_send_at := some 10 }).2 = true :=
    h.2.1.mpr (Or.inl rfl)
  exact ⟨hatt, (h.2.2.1 hatt rfl).1⟩

/-! ## ReminderDispatcher (main.py `check_and_send_reminders`,
reminder_service.py `get_pending_reminders`)

External collaborators of one tick: `user_of` resolves a reminder's deadline
to its owning user id (the `select(User)` lookup; `none` when the user row is
missing), `settings_of` is the per-user `ReminderSettings` lookup, `render`
is the outcome of `generate_reminder_message` (`none` when it raises) and
`deliver` is the outcome of `bot.send_message`. -/

/-- `ReminderService.get_pending_reminders`: all reminders with
`is_sent == False` and `send_at <= now`. -/
def get_pending_reminders (now : Int) (db : List ReminderRow) : List ReminderRow :=
  db.filter (fun r => r.is_sent == false && decide (r.send_at ≤ now))

/-- The per-reminder body of the dispatcher loop: resolve the user (missing
user: `continue`); skip when a settings row exists with the enabled flag
off; render the message (an exception is caught: `continue`); deliver; only
on successful delivery mark the reminder sent and store the message
(`mark_as_sent`).  The Bool records whether a delivery happened. -/
def dispatch_reminder (user_of : Nat → Option Nat)
    (settings_of : Nat → Option ReminderSettingsRow)
    (render : ReminderRow → Option String) (deliver : Nat → ReminderRow → Bool)
    (r : ReminderRow) : ReminderRow × Bool :=
  match user_of r.deadline_id with
  | none => (r, false)
  | some uid =>
    let enabled := match settings_of uid with
      | some st => st.is_enabled
      | none => true
    if enabled = false then (r, false)
    else
      match render r with
      | none => (r, false)
      | some msg =>
        if deliver uid r then ({ r with is_sent := true, message := some msg }, true)
        else (r, false)

/-- One dispatcher tick restricted to a single row: only rows selected by
`get_pending_reminders` are processed, the others are untouched. -/
def tick_reminder (user_of : Nat → Option Nat)
    (settings_of : Nat → Option ReminderSettingsRow)
    (render : ReminderRow → Option String) (deliver : Nat → ReminderRow → Bool)
    (now : Int) (r : ReminderRow) : ReminderRow × Bool :=
  if r.is_sent == false && decide (r.send_at ≤ now)
  then dispatch_reminder user_of settings_of render deliver r
  else (r, false)

/-- `check_and_send_reminders`: the whole tick over the reminders table; the
Bool flags the rows actually delivered. -/
def check_and_send_reminders (user_of : Nat → Option Nat)
    (settings_of : Nat → Option ReminderSettingsRow)
    (render : ReminderRow → Option String) (deliver : Nat → ReminderRow → Bool)
    (now : Int) (db : List ReminderRow) : List (ReminderRow × Bool) :=
  db.map (tick_reminder user_of settings_of render deliver now)

/-- C9: when a user's reminder settings exist with the enabled flag off, a
dispatcher tick delivers none of that user's reminders and marks none of them
sent: every such row maps to itself with no delivery, whatever the batch. -/
theorem c9_disabled_never_delivers (user_of : Nat → Option Nat)
    (settings_of : Nat → Option ReminderSettingsRow)
    (render : ReminderRow → Option String) (deliver : Nat → ReminderRow → Bool)
    (now : Int) (uid : Nat) (st : ReminderSettingsRow)
    (hs : settings_of uid = some st) (hen : st.is_enabled = false)
    (r : ReminderRow) (hu : user_of r.deadline_id = some uid) :
    tick_reminder user_of settings_of render deliver now r = (r, false)
      ∧ ∀ db : List ReminderRow, r ∈ db →
          (r, false) ∈ check_and_send_reminders user_of settings_of render deliver now db := by
  have hd : dispatch_reminder user_of settings_of render deliver r = (r, false) := by
    unfold dispatch_reminder
    rw [hu]
    simp only [hs, hen]
    rw [if_pos trivial]
  have ht : tick_reminder user_of settings_of render deliver now r = (r, false) := by
    unfold tick_reminder
    split
    · exact hd
    · rfl
  refine ⟨ht, fun db hr => ?_⟩
  rw [← ht]
  exact List.mem_map_of_mem _ hr

/-- Witness for `c9_disabled_never_delivers` on a concrete disabled user with
a due, unsent reminder. -/
theorem c9_disabled_never_delivers_witness :
    tick_reminder (fun _ => some 3) (fun _ => some ⟨[72, 24, 12], false⟩)
        (fun _ => some "msg") (fun _ _ => true) 100
        { deadline_id := 1, hours_before := 24, send_at := 50,
          is_sent := false, message := none }
      = ({ deadline_id := 1, hours_before := 24, send_at := 50,
           is_sent := false, message := none }, false) :=
  (c9_disabled_never_delivers (fun _ => some 3) (fun _ => some ⟨[72, 24, 12], false⟩)
    (fun _ => some "msg") (fun _ _ => true) 100 3 ⟨[72, 24, 12], false⟩ rfl rfl
    { deadline_id := 1, hours_before := 24, send_at := 50,
      is_sent := false, message := none } rfl).1

/-! ## ScheduleSyncEngine (ical_sync_service.py)

`_parse_event` builds, per VEVENT, a dict with the subject name and class
category (derived from the summary), weekday, start/end clock time, room,
teacher label, and the week type computed from the occurrence date:
`week_number = event_date.isocalendar()[1]; week_type = "even" if
week_number % 2 == 0 else "odd"`.  The embedding keeps the parsed fields and
the ISO week number, and computes the week type exactly as the source does;
the calendar/date arithmetic itself is the external parser collaborator. -/

/-- A parsed feed event (`_parse_event` result). -/
structure RawEvent where
  subject_name : String
  class_type : String
  day_of_week : Nat
  start_time : String
  end_time : String
  room : Option String
  teacher_name : Option String
  week_number : Nat
  deriving Repr, DecidableEq

/-- `week_type = "even" if week_number % 2 == 0 else "odd"` (_parse_event). -/
def week_type_of (e : RawEvent) : String :=
  if e.week_number % 2 == 0 then "even" else "odd"

/-- The grouping key of `_group_events_to_patterns`:
(subject name, weekday, start time, class category). -/
abbrev PatternKey := String × Nat × String × String

def event_key (e : RawEvent) : PatternKey :=
  (e.subject_name, e.day_of_week, e.start_time, e.class_type)

/-- In-progress group entry of the `patterns` dict: the pattern fields taken
from the first occurrence plus the set of observed week types. -/
structure PatternAcc where
  subject_name : String
  day_of_week : Nat
  start_time : String
  end_time : String
  room : Option String
  class_type : String
  teacher_name : Option String
  week_types : List String
  deriving Repr, DecidableEq

def acc_key (a : PatternAcc) : PatternKey :=
  (a.subject_name, a.day_of_week, a.start_time, a.class_type)

/-- `patterns[key]["week_types"].add(...)`: set insertion, modelled as a
duplicate-free list. -/
def insert_week_type (wts : List String) (wt : String) : List String :=
  if wt ∈ wts then wts else wts ++ [wt]

/-- The dict entry created on first sight of a key, with the week type of the
creating event already added (the source initialises `week_types` to the
empty set and immediately adds the event's week type). -/
def init_acc (e : RawEvent) : PatternAcc :=
  { subject_name := e.subject_name, day_of_week := e.day_of_week,
    start_time := e.start_time, end_time := e.end_time, room := e.room,
    class_type := e.class_type, teacher_name := e.teacher_name,
    week_types := [week_type_of e] }

/-- One iteration of the grouping loop over the insertion-ordered dict,
modelled as an association list: a new key is appended, an existing key has
the event's week type added to its set. -/
def add_event : List (PatternKey × PatternAcc) → RawEvent →
    List (PatternKey × PatternAcc)
  | [], e => [(event_key e, init_acc e)]
  | (k', a) :: rest, e =>
    if event_key e = k' then
      (k', { a with week_types := insert_week_type a.week_types (week_type_of e) })
        :: rest
    else (k', a) :: add_event rest e

/-- Dict lookup in the association list. -/
def find_acc : List (PatternKey × PatternAcc) → PatternKey → Option PatternAcc
  | [], _ => none
  | (k', a) :: rest, k => if k = k' then some a else find_acc rest k

/-- The computed pattern emitted per group (the dict value after the final
week-type resolution: `"both"` when more than one week type was observed,
else the single observed one). -/
structure SchedulePatternData where
  subject_name : String
  day_of_week : Nat
  start_time : String
  end_time : String
  room : Option String
  class_type : String
  teacher_name : Option String
  week_type : String
  deriving Repr, DecidableEq

def pattern_key (p : SchedulePatternData) : PatternKey :=
  (p.subject_name, p.day_of_week, p.start_time, p.class_type)

def finalize_acc (a : PatternAcc) : SchedulePatternData :=
  { subject_name := a.subject_name, day_of_week := a.day_of_week,
    start_time := a.start_time, end_time := a.end_time, room := a.room,
    class_type := a.class_type, teacher_name := a.teacher_name,
    week_type := if a.week_types.length > 1 then "both" else a.week_types.headD "" }

/-- `ICalSyncService._group_events_to_patterns`. -/
def group_events_to_patterns (events : List RawEvent) : List SchedulePatternData :=
  (events.foldl add_event []).map (fun kv => finalize_acc kv.2)

/-! ## Lemmas about the grouping fold -/

theorem mem_insert_week_type (wts : List String) (wt s : String) :
    s ∈ insert_week_type wts wt ↔ s ∈ wts ∨ s = wt := by
  by_cases hmem : wt ∈ wts
  · rw [insert_week_type, if_pos hmem]
    constructor
    · exact fun h => Or.inl h
    · rintro (h | h)
      · exact h
      · rw [h]; exact hmem
  · rw [insert_week_type, if_neg hmem]
    simp [List.mem_append]

theorem nodup_insert_week_type (wts : List String) (wt : String)
    (h : wts.Nodup) : (insert_week_type wts wt).Nodup := by
  by_cases hmem : wt ∈ wts
  · rw [insert_week_type, if_pos hmem]; exact h
  · rw [insert_week_type, if_neg hmem]
    refine List.Nodup.append h (List.nodup_singleton wt) ?_
    intro x hx hx'
    rw [List.mem_singleton] at hx'
    subst hx'
    exact hmem hx

theorem find_add_event (e : RawEvent) (k : PatternKey)
    (l : List (PatternKey × PatternAcc)) :
    find_acc (add_event l e) k =
      if k = event_key e then
        some (match find_acc l k with
              | some a =>
                { a with week_types := insert_week_type a.week_types (week_type_of e) }
              | none => init_acc e)
      else find_acc l k := by
  induction l with
  | nil => simp only [add_event, find_acc]
  | cons kv rest ih =>
    obtain ⟨k', a⟩ := kv
    by_cases he : event_key e = k'
    · simp only [add_event, if_pos he, find_acc]
      by_cases hk : k = k'
      · have hke : k = event_key e := by rw [hk, he]
        rw [if_pos hk, if_pos hke, if_pos hk]
      · have hke : ¬ k = event_key e := fun hc => hk (by rw [hc, he])
        rw [if_neg hk, if_neg hke, if_neg hk]
    · simp only [add_event, if_neg he, find_acc]
      by_cases hk : k = k'
      · have hke : ¬ k = event_key e := fun hc => he (by rw [← hc, hk])
        rw [if_pos hk, if_neg hke, if_pos hk]
      · rw [if_neg hk, if_neg hk, ih]

theorem mem_keys_add_event (e : RawEvent) (k0 : PatternKey) :
    ∀ l : List (PatternKey × PatternAcc),
      k0 ∈ (add_event l e).map Prod.fst → k0 ∈ l.map Prod.fst ∨ k0 = event_key e := by
  intro l
  induction l with
  | nil =>
    simp only [add_event, List.map_cons, List.map_nil, List.mem_singleton]
    exact fun h => Or.inr h
  | cons kv rest ih =>
    obtain ⟨k', a⟩ := kv
    by_cases he : event_key e = k'
    · simp only [add_event, if_pos he, List.map_cons, List.mem_cons]
      rintro (h | h)
      · exact Or.inl (Or.inl h)
      · exact Or.inl (Or.inr h)
    · simp only [add_event, if_neg he, List.map_cons, List.mem_cons]
      rintro (h | h)
      · exact Or.inl (Or.inl h)
      · rcases ih h with h2 | h2
        · exact Or.inl (Or.inr h2)
        · exact Or.inr h2

theorem keys_nodup_add_event (e : RawEvent) :
    ∀ l : List (PatternKey × PatternAcc), (l.map Prod.fst).Nodup →
      ((add_event l e).map Prod.fst).Nodup := by
  intro l
  induction l with
  | nil => intro _; simp [add_event]
  | cons kv rest ih =>
    obtain ⟨k', a⟩ := kv
    intro hnd
    rw [List.map_cons, List.nodup_cons] at hnd
    by_cases he : event_key e = k'
    · simp only [add_event, if_pos he, List.map_cons, List.nodup_cons]
      exact hnd
    · simp only [add_event, if_neg he, List.map_cons, List.nodup_cons]
      refine ⟨?_, ih hnd.2⟩
      intro hc
      rcases mem_keys_add_event e k' rest hc with h2 | h2
      · exact hnd.1 h2
      · exact he h2.symm

theorem find_acc_mem (k : PatternKey) (a : PatternAcc) :
    ∀ l : List (PatternKey × PatternAcc), find_acc l k = some a → (k, a) ∈ l := by
  intro l
  induction l with
  | nil => intro h; exact Option.noConfusion h
  | cons kv rest ih =>
    obtain ⟨k', b⟩ := kv
    simp only [find_acc]
    by_cases hk : k = k'
    · rw [if_pos hk]
      intro h
      cases h
      rw [hk]
      exact List.mem_cons_self _ _
    · rw [if_neg hk]
      intro h
      exact List.mem_cons_of_mem _ (ih h)

theorem entries_add_event (e : RawEvent)
    (P : PatternAcc → Prop)
    (hinit : P (init_acc e))
    (hupd : ∀ a, P a →
      P { a with week_types := insert_week_type a.week_types (week_type_of e) }) :
    ∀ l : List (PatternKey × PatternAcc), (∀ kv ∈ l, P kv.2) →
      ∀ kv ∈ add_event l e, P kv.2 := by
  intro l
  induction l with
  | nil =>
    intro _ kv hkv
    simp only [add_event, List.mem_singleton] at hkv
    rw [hkv]
    exact hinit
  | cons kv0 rest ih =>
    obtain ⟨k', a⟩ := kv0
    intro hall kv hkv
    by_cases he : event_key e = k'
    · simp only [add_event, if_pos he, List.mem_cons] at hkv
      rcases hkv with h | h
      · rw [h]
        exact hupd a (hall _ (List.mem_cons_self _ _))
      · exact hall _ (List.mem_cons_of_mem _ h)
    · simp only [add_event, if_neg he, List.mem_cons] at hkv
      rcases hkv with h | h
      · rw [h]
        exact hall _ (List.mem_cons_self _ _)
      · exact ih (fun kv2 hkv2 => hall _ (List.mem_cons_of_mem _ hkv2)) kv h

theorem acc_key_add_event (e : RawEvent) :
    ∀ l : List (PatternKey × PatternAcc), (∀ kv ∈ l, kv.1 = acc_key kv.2) →
      ∀ kv ∈ add_event l e, kv.1 = acc_key kv.2 := by
  intro l
  induction l with
  | nil =>
    intro _ kv hkv
    simp only [add_event, List.mem_singleton] at hkv
    rw [hkv]
    rfl
  | cons kv0 rest ih =>
    obtain ⟨k', a⟩ := kv0
    intro hall kv hkv
    by_cases he : event_key e = k'
    · simp only [add_event, if_pos he, List.mem_cons] at hkv
      rcases hkv with h | h
      · rw [h]
        have hk0 : (k', a).1 = acc_key (k', a).2 :=
          hall _ (List.mem_cons_self (k', a) rest)
        exact hk0
      · exact hall _ (List.mem_cons_of_mem _ h)
    · simp only [add_event, if_neg he, List.mem_cons] at hkv
      rcases hkv with h | h
      · rw [h]
        exact hall _ (List.mem_cons_self _ _)
      · exact ih (fun kv2 hkv2 => hall _ (List.mem_cons_of_mem _ hkv2)) kv h

theorem mem_find_acc (k : PatternKey) (a : PatternAcc) :
    ∀ l : List (PatternKey × PatternAcc), (l.map Prod.fst).Nodup → (k, a) ∈ l →
      find_acc l k = some a := by
  intro l
  induction l with
  | nil => intro _ h; exact absurd h (List.not_mem_nil _)
  | cons kv rest ih =>
    obtain ⟨k', b⟩ := kv
    intro hnd hmem
    rw [List.map_cons, List.nodup_cons] at hnd
    rcases List.mem_cons.mp hmem with h | h
    · cases h
      simp [find_acc]
    · have hk : k ≠ k' := by
        intro hc
        apply hnd.1
        rw [← hc]
        have hmm := List.mem_map_of_mem Prod.fst h
        exact hmm
      simp only [find_acc]
      rw [if_neg hk]
      exact ih hnd.2 h

theorem entries_foldl (P : PatternAcc → Prop)
    (hinit : ∀ e, P (init_acc e))
    (hupd : ∀ e a, P a →
      P { a with week_types := insert_week_type a.week_types (week_type_of e) }) :
    ∀ (events : List RawEvent) (l : List (PatternKey × PatternAcc)),
      (∀ kv ∈ l, P kv.2) → ∀ kv ∈ events.foldl add_event l, P kv.2 := by
  intro events
  induction events with
  | nil => intro l h kv hkv; exact h kv hkv
  | cons e rest ih =>
    intro l h kv hkv
    rw [List.foldl_cons] at hkv
    exact ih (add_event l e) (entries_add_event e P (hinit e) (hupd e) l h) kv hkv

theorem keys_nodup_foldl :
    ∀ (events : List RawEvent) (l : List (PatternKey × PatternAcc)),
      (l.map Prod.fst).Nodup → ((events.foldl add_event l).map Prod.fst).Nodup := by
  intro events
  induction events with
  | nil => intro l h; exact h
  | cons e rest ih =>
    intro l h
    rw [List.foldl_cons]
    exact ih _ (keys_nodup_add_event e l h)

theorem acc_key_foldl :
    ∀ (events : List RawEvent) (l : List (PatternKey × PatternAcc)),
      (∀ kv ∈ l, kv.1 = acc_key kv.2) →
      ∀ kv ∈ events.foldl add_event l, kv.1 = acc_key kv.2 := by
  intro events
  induction events with
  | nil => intro l h kv hkv; exact h kv hkv
  | cons e rest ih =>
    intro l h kv hkv
    rw [List.foldl_cons] at hkv
    exact ih (add_event l e) (acc_key_add_event e l h) kv hkv

theorem find_foldl_wts :
    ∀ (events : List RawEvent) (l : List (PatternKey × PatternAcc))
      (k : PatternKey) (a : PatternAcc),
      find_acc (events.foldl add_event l) k = some a →
      ∀ s : String, s ∈ a.week_types ↔
        ((∃ b, find_acc l k = some b ∧ s ∈ b.week_types)
          ∨ ∃ e ∈ events, event_key e = k ∧ week_type_of e = s) := by
  intro events
  induction events with
  | nil =>
    intro l k a hfind s
    rw [List.foldl_nil] at hfind
    constructor
    · intro hmem; exact Or.inl ⟨a, hfind, hmem⟩
    · rintro (⟨b, hb, hmem⟩ | ⟨e, he, _, _⟩)
      · rw [hfind] at hb
        cases hb
        exact hmem
      · exact absurd he (List.not_mem_nil e)
  | cons e rest ih =>
    intro l k a hfind s
    rw [List.foldl_cons] at hfind
    rw [ih (add_event l e) k a hfind s, find_add_event e k l]
    by_cases hk : k = event_key e
    · rw [if_pos hk]
      cases hfl : find_acc l k with
      | none =>
        constructor
        · rintro (⟨b, hb, hmem⟩ | ⟨e', he', hke', hwt'⟩)
          · cases hb
            rw [init_acc] at hmem
            simp only [List.mem_singleton] at hmem
            exact Or.inr ⟨e, List.mem_cons_self e rest, hk.symm, hmem.symm⟩
          · exact Or.inr ⟨e', List.mem_cons_of_mem e he', hke', hwt'⟩
        · rintro (⟨b, hb, _⟩ | ⟨e', he', hke', hwt'⟩)
          · exact Option.noConfusion hb
          · rcases List.mem_cons.mp he' with h | h
            · subst h
              refine Or.inl ⟨init_acc e', ?_, ?_⟩
              · rfl
              · rw [init_acc]
                simp only [List.mem_singleton]
                exact hwt'.symm
            · exact Or.inr ⟨e', h, hke', hwt'⟩
      | some b =>
        constructor
        · rintro (⟨b', hb', hmem⟩ | ⟨e', he', hke', hwt'⟩)
          · cases hb'
            rw [mem_insert_week_type] at hmem
            rcases hmem with h | h
            · exact Or.inl ⟨b, rfl, h⟩
            · exact Or.inr ⟨e, List.mem_cons_self e rest, hk.symm, h.symm⟩
          · exact Or.inr ⟨e', List.mem_cons_of_mem e he', hke', hwt'⟩
        · rintro (⟨b', hb', hmem⟩ | ⟨e', he', hke', hwt'⟩)
          · cases hb'
            refine Or.inl ⟨_, rfl, ?_⟩
            rw [mem_insert_week_type]
            exact Or.inl hmem
          · rcases List.mem_cons.mp he' with h | h
            · subst h
              refine Or.inl ⟨_, rfl, ?_⟩
              rw [mem_insert_week_type]
              exact Or.inr hwt'.symm
            · exact Or.inr ⟨e', h, hke', hwt'⟩
    · rw [if_neg hk]
      constructor
      · rintro (⟨b, hb, hmem⟩ | ⟨e', he', hke', hwt'⟩)
        · exact Or.inl ⟨b, hb, hmem⟩
        · exact Or.inr ⟨e', List.mem_cons_of_mem e he', hke', hwt'⟩
      · rintro (⟨b, hb, hmem⟩ | ⟨e', he', hke', hwt'⟩)
        · exact Or.inl ⟨b, hb, hmem⟩
        · rcases List.mem_cons.mp he' with h | h
          · subst h
            exact absurd hke'.symm hk
          · exact Or.inr ⟨e', h, hke', hwt'⟩

theorem find_foldl_some_iff :
    ∀ (events : List RawEvent) (l : List (PatternKey × PatternAcc))
      (k : PatternKey),
      (find_acc (events.foldl add_event l) k).isSome = true ↔
        ((find_acc l k).isSome = true ∨ ∃ e ∈ events, event_key e = k) := by
  intro events
  induction events with
  | nil =>
    intro l k
    rw [List.foldl_nil]
    constructor
    · exact fun h => Or.inl h
    · rintro (h | ⟨e, he, _⟩)
      · exact h
      · exact absurd he (List.not_mem_nil e)
  | cons e rest ih =>
    intro l k
    rw [List.foldl_cons, ih (add_event l e) k, find_add_event e k l]
    by_cases hk : k = event_key e
    · rw [if_pos hk]
      constructor
      · intro _; exact Or.inr ⟨e, List.mem_cons_self e rest, hk.symm⟩
      · intro _; exact Or.inl (Option.isSome_some)
    · rw [if_neg hk]
      constructor
      · rintro (h | ⟨e', he', hke'⟩)
        · exact Or.inl h
        · exact Or.inr ⟨e', List.mem_cons_of_mem e he', hke'⟩
      · rintro (h | ⟨e', he', hke'⟩)
        · exact Or.inl h
        · rcases List.mem_cons.mp he' with h2 | h2
          · subst h2
            exact absurd hke'.symm hk
          · exact Or.inr ⟨e', h2, hke'⟩

theorem week_type_of_even (e : RawEvent) :
    week_type_of e = "even" ↔ e.week_number % 2 = 0 := by
  unfold week_type_of
  by_cases h : e.week_number % 2 = 0
  · rw [if_pos (beq_iff_eq.mpr h)]
    exact iff_of_true rfl h
  · rw [if_neg (fun hc => h (beq_iff_eq.mp hc))]
    exact iff_of_false (by decide) h

theorem week_type_of_odd (e : RawEvent) :
    week_type_of e = "odd" ↔ e.week_number % 2 = 1 := by
  unfold week_type_of
  by_cases h : e.week_number % 2 = 0
  · rw [if_pos (beq_iff_eq.mpr h)]
    refine iff_of_false (by decide) ?_
    omega
  · rw [if_neg (fun hc => h (beq_iff_eq.mp hc))]
    refine iff_of_true rfl ?_
    omega

theorem week_type_of_cases (e : RawEvent) :
    week_type_of e = "even" ∨ week_type_of e = "odd" := by
  unfold week_type_of
  split
  · exact Or.inl rfl
  · exact Or.inr rfl

theorem two_mem_one_lt_length {α : Type} (l : List α) (a b : α)
    (ha : a ∈ l) (hb : b ∈ l) (hab : a ≠ b) : 1 < l.length := by
  cases l with
  | nil => exact absurd ha (List.not_mem_nil a)
  | cons x t =>
    cases t with
    | nil =>
      rw [List.mem_singleton] at ha hb
      exact absurd (ha.trans hb.symm) hab
    | cons y t2 => simp [List.length_cons]

theorem nodup_all_eq_singleton {α : Type} (l : List α) (x : α)
    (hne : l ≠ []) (hnd : l.Nodup) (hall : ∀ s ∈ l, s = x) : l = [x] := by
  cases l with
  | nil => exact absurd rfl hne
  | cons a t =>
    have hax : a = x := hall a (List.mem_cons_self a t)
    cases t with
    | nil => rw [hax]
    | cons b t2 =>
      exfalso
      have hbx : b = x := hall b (List.mem_cons_of_mem a (List.mem_cons_self b t2))
      have hna : a ∉ b :: t2 := (List.nodup_cons.mp hnd).1
      apply hna
      rw [hax, ← hbx]
      exact List.mem_cons_self b t2

/-- C7: grouping builds, for every key realised by some raw event, exactly
one pattern keyed by (subject name, weekday, start time, class category);
its week-parity field is `"both"` exactly when the group has occurrences of
both ISO-week parities and otherwise equals the single observed parity,
where an event is even-week exactly when its ISO week number is even;
moreover every emitted pattern comes from some event's key. -/
theorem c7_group_week_parity (events : List RawEvent) (k : PatternKey)
    (hk : ∃ e ∈ events, event_key e = k) :
    ∃ p ∈ group_events_to_patterns events,
      pattern_key p = k
        ∧ (∀ q ∈ group_events_to_patterns events, pattern_key q = k → q = p)
        ∧ (p.week_type = "both" ↔
            ((∃ e ∈ events, event_key e = k ∧ e.week_number % 2 = 0)
              ∧ (∃ e ∈ events, event_key e = k ∧ e.week_number % 2 = 1)))
        ∧ ((∀ e ∈ events, event_key e = k → e.week_number % 2 = 0) →
            p.week_type = "even")
        ∧ ((∀ e ∈ events, event_key e = k → e.week_number % 2 = 1) →
            p.week_type = "odd")
        ∧ (∀ q ∈ group_events_to_patterns events,
            ∃ e ∈ events, event_key e = pattern_key q) := by
  obtain ⟨e0, he0, hke0⟩ := hk
  have hnodup : (((events.foldl add_event []).map Prod.fst)).Nodup :=
    keys_nodup_foldl events [] (by simp)
  have hkeys : ∀ kv ∈ events.foldl add_event [], kv.1 = acc_key kv.2 :=
    acc_key_foldl events [] (by intro kv h; exact absurd h (List.not_mem_nil kv))
  have hsome : (find_acc (events.foldl add_event []) k).isSome = true :=
    (find_foldl_some_iff events [] k).mpr (Or.inr ⟨e0, he0, hke0⟩)
  obtain ⟨a, ha⟩ := Option.isSome_iff_exists.mp hsome
  have hmema : (k, a) ∈ events.foldl add_event [] := find_acc_mem k a _ ha
  have hwts : ∀ s, s ∈ a.week_types ↔
      ∃ e ∈ events, event_key e = k ∧ week_type_of e = s := by
    intro s
    rw [find_foldl_wts events [] k a ha s]
    constructor
    · rintro (⟨b, hb, _⟩ | h)
      · exact Option.noConfusion hb
      · exact h
    · exact fun h => Or.inr h
  have hwnd : a.week_types.Nodup := by
    have hall := entries_foldl (fun acc => acc.week_types.Nodup)
      (fun e => List.nodup_singleton (week_type_of e))
      (fun e acc h => nodup_insert_week_type _ _ h)
      events [] (by intro kv hkv; exact absurd hkv (List.not_mem_nil kv))
    exact hall (k, a) hmema
  have hwmem : ∀ s ∈ a.week_types, s = "even" ∨ s = "odd" := by
    intro s hs
    obtain ⟨e, _, _, hwt⟩ := (hwts s).mp hs
    rcases week_type_of_cases e with h | h
    · exact Or.inl (by rw [← hwt, h])
    · exact Or.inr (by rw [← hwt, h])
  have hwne : a.week_types ≠ [] := by
    intro hc
    have := (hwts (week_type_of e0)).mpr ⟨e0, he0, hke0, rfl⟩
    rw [hc] at this
    exact List.not_mem_nil _ this
  have hkeya : k = acc_key a := hkeys (k, a) hmema
  have heven_mem : "even" ∈ a.week_types ↔
      ∃ e ∈ events, event_key e = k ∧ e.week_number % 2 = 0 := by
    rw [hwts]
    constructor
    · rintro ⟨e, he, hke, hwt⟩
      exact ⟨e, he, hke, (week_type_of_even e).mp hwt⟩
    · rintro ⟨e, he, hke, hpar⟩
      exact ⟨e, he, hke, (week_type_of_even e).mpr hpar⟩
  have hodd_mem : "odd" ∈ a.week_types ↔
      ∃ e ∈ events, event_key e = k ∧ e.week_number % 2 = 1 := by
    rw [hwts]
    constructor
    · rintro ⟨e, he, hke, hwt⟩
      exact ⟨e, he, hke, (week_type_of_odd e).mp hwt⟩
    · rintro ⟨e, he, hke, hpar⟩
      exact ⟨e, he, hke, (week_type_of_odd e).mpr hpar⟩
  refine ⟨finalize_acc a, List.mem_map_of_mem (fun kv => finalize_acc kv.2) hmema,
    hkeya.symm, ?_, ?_, ?_, ?_, ?_⟩
  · -- uniqueness
    intro q hq hkq
    obtain ⟨⟨k2, a2⟩, hkv2, hq2⟩ := List.mem_map.mp hq
    have hkey2 : k2 = acc_key a2 := hkeys (k2, a2) hkv2
    have hk2 : k2 = k := by
      rw [← hkq, ← hq2]
      exact hkey2
    rw [hk2] at hkv2
    have : find_acc (events.foldl add_event []) k = some a2 :=
      mem_find_acc k a2 _ hnodup hkv2
    rw [ha] at this
    cases this
    exact hq2.symm
  · -- "both" iff both parities
    show (if a.week_types.length > 1 then "both" else a.week_types.headD "") = "both" ↔ _
    rw [← heven_mem, ← hodd_mem]
    by_cases hlen : a.week_types.length > 1
    · rw [if_pos hlen]
      refine iff_of_true rfl ?_
      obtain ⟨s1, s2, t, hshape⟩ : ∃ s1 s2 t, a.week_types = s1 :: s2 :: t := by
        cases hw : a.week_types with
        | nil => rw [hw] at hlen; simp at hlen
        | cons s1 t1 =>
          cases t1 with
          | nil => rw [hw] at hlen; simp at hlen
          | cons s2 t2 => exact ⟨s1, s2, t2, rfl⟩
      have hs1 : s1 ∈ a.week_types := by rw [hshape]; exact List.mem_cons_self _ _
      have hs2 : s2 ∈ a.week_types := by
        rw [hshape]
        exact List.mem_cons_of_mem _ (List.mem_cons_self _ _)
      have hs12 : s1 ≠ s2 := by
        intro hc
        rw [hshape] at hwnd
        have := (List.nodup_cons.mp hwnd).1
        apply this
        rw [hc]
        exact List.mem_cons_self _ _
      rcases hwmem s1 hs1 with h1 | h1 <;> rcases hwmem s2 hs2 with h2 | h2
      · exact absurd (h1.trans h2.symm) hs12
      · exact ⟨h1 ▸ hs1, h2 ▸ hs2⟩
      · exact ⟨h2 ▸ hs2, h1 ▸ hs1⟩
      · exact absurd (h1.trans h2.symm) hs12
    · rw [if_neg hlen]
      refine iff_of_false ?_ ?_
      · cases hw : a.week_types with
        | nil => exact absurd hw hwne
        | cons s t =>
          cases t with
          | nil =>
            simp only [hw, List.headD_cons]
            have hs : s ∈ a.week_types := by rw [hw]; exact List.mem_cons_self _ _
            rcases hwmem s hs with h | h <;> rw [h] <;> decide
          | cons s2 t2 => rw [hw] at hlen; simp at hlen
      · rintro ⟨hev, hod⟩
        exact hlen (two_mem_one_lt_length _ _ _ hev hod (by decide))
  · -- all even
    intro hall
    show (if a.week_types.length > 1 then "both" else a.week_types.headD "") = "even"
    have hsingle : a.week_types = ["even"] := by
      refine nodup_all_eq_singleton _ _ hwne hwnd ?_
      intro s hs
      rcases hwmem s hs with h | h
      · exact h
      · exfalso
        rw [h] at hs
        obtain ⟨e, he, hke, hpar⟩ := hodd_mem.mp hs
        have := hall e he hke
        omega
    rw [hsingle]
    decide
  · -- all odd
    intro hall
    show (if a.week_types.length > 1 then "both" else a.week_types.headD "") = "odd"
    have hsingle : a.week_types = ["odd"] := by
      refine nodup_all_eq_singleton _ _ hwne hwnd ?_
      intro s hs
      rcases hwmem s hs with h | h
      · exfalso
        rw [h] at hs
        obtain ⟨e, he, hke, hpar⟩ := heven_mem.mp hs
        have := hall e he hke
        omega
      · exact h
    rw [hsingle]
    decide
  · -- no junk patterns
    intro q hq
    obtain ⟨⟨k2, a2⟩, hkv2, hq2⟩ := List.mem_map.mp hq
    have hkey2 : k2 = acc_key a2 := hkeys (k2, a2) hkv2
    have hfind2 : find_acc (events.foldl add_event []) k2 = some a2 :=
      mem_find_acc k2 a2 _ hnodup hkv2
    have hsome2 : (find_acc (events.foldl add_event []) k2).isSome = true := by
      rw [hfind2]; rfl
    rcases (find_foldl_some_iff events [] k2).mp hsome2 with h | ⟨e, he, hke⟩
    · simp [find_acc] at h
    · refine ⟨e, he, ?_⟩
      rw [hke, ← hq2]
      exact hkey2

/-- Witness for `c7_group_week_parity`: two events of the same group on ISO
weeks 10 (even) and 11 (odd) yield the single pattern with week type
`"both"`. -/
theorem c7_group_week_parity_witness :
    ∃ p ∈ group_events_to_patterns
        [{ subject_name := "Math", class_type := "lecture", day_of_week := 0,
           start_time := "09:00", end_time := "10:30", room := some "A",
           teacher_name := none, week_number := 10 },
         { subject_name := "Math", class_type := "lecture", day_of_week := 0,
           start_time := "09:00", end_time := "10:30", room := some "A",
           teacher_name := none, week_number := 11 }],
      pattern_key p = ("Math", 0, "09:00", "lecture") ∧ p.week_type = "both" := by
  obtain ⟨p, hp, hkey, _, hboth, _⟩ := c7_group_week_parity
    [{ subject_name := "Math", class_type := "lecture", day_of_week := 0,
       start_time := "09:00", end_time := "10:30", room := some "A",
       teacher_name := none, week_number := 10 },
     { subject_name := "Math", class_type := "lecture", day_of_week := 0,
       start_time := "09:00", end_time := "10:30", room := some "A",
       teacher_name := none, week_number := 11 }]
    ("Math", 0, "09:00", "lecture")
    ⟨_, List.mem_cons_self _ _, rfl⟩
  refine ⟨p, hp, hkey, ?_⟩
  apply hboth.mpr
  constructor
  · exact ⟨_, List.mem_cons_self _ _, rfl, by decide⟩
  · refine ⟨_, List.mem_cons_of_mem _ (List.mem_cons_self _ _), rfl, by decide⟩

/-! ## ScheduleSyncEngine: reconciliation (`sync_user_schedule`)

The persisted state is the subjects table, the schedule-entries table (both
insertion-ordered; `session.add` appends, `flush` makes a new subject
visible to later queries in the same call), the id counter the database
would assign, and the user's `last_schedule_sync` column. -/

/-- Row of `subjects`. -/
structure SubjectRow where
  id : Nat
  user_id : Nat
  name : String
  deriving Repr, DecidableEq

/-- Row of `schedule_entries` (models.py `ScheduleEntry`). -/
structure ScheduleEntryRow where
  subject_id : Nat
  day_of_week : Nat
  start_time : String
  end_time : String
  room : Option String
  class_type : String
  week_type : String
  teacher_name : Option String
  deriving Repr, DecidableEq

/-- The slice of database state touched by one sync call. -/
structure SyncState where
  subjects : List SubjectRow
  entries : List ScheduleEntryRow
  next_subject_id : Nat
  last_schedule_sync : Option Int
  deriving Repr, DecidableEq

/-- The success payload of `sync_user_schedule`. -/
structure SyncReport where
  events_parsed : Nat
  patterns_found : Nat
  created : Nat
  updated : Nat
  deriving Repr, DecidableEq

/-- `select(Subject).where(user_id == …, name == …)`. -/
def find_subject (s : SyncState) (uid : Nat) (name : String) : Option SubjectRow :=
  s.subjects.find? (fun su => su.user_id == uid && su.name == name)

/-- `ICalSyncService._get_or_create_subject`: reuse the matching subject or
insert (and flush) a new one. -/
def get_or_create_subject (s : SyncState) (uid : Nat) (name : String) :
    SubjectRow × SyncState :=
  match find_subject s uid name with
  | some su => (su, s)
  | none =>
    let su : SubjectRow := { id := s.next_subject_id, user_id := uid, name := name }
    (su, { s with subjects := s.subjects ++ [su],
                  next_subject_id := s.next_subject_id + 1 })

/-- The reconciliation lookup key predicate:
`subject_id == …, day_of_week == …, start_time == …, class_type == …`. -/
def entry_key_matches (sid : Nat) (p : SchedulePatternData)
    (en : ScheduleEntryRow) : Bool :=
  en.subject_id == sid && en.day_of_week == p.day_of_week
    && en.start_time == p.start_time && en.class_type == p.class_type

/-- `select(ScheduleEntry).where(…)` for a pattern's uniqueness key. -/
def find_entry (entries : List ScheduleEntryRow) (sid : Nat)
    (p : SchedulePatternData) : Option ScheduleEntryRow :=
  entries.find? (entry_key_matches sid p)

/-- The in-place mutation of the matched row: only end time, room, teacher
label and week parity are updated. -/
def update_entry_fields (p : SchedulePatternData)
    (en : ScheduleEntryRow) : ScheduleEntryRow :=
  { en with end_time := p.end_time, room := p.room,
            teacher_name := p.teacher_name, week_type := p.week_type }

/-- Apply `f` to the first row matching `pred` (the row the ORM mutates). -/
def update_first (l : List ScheduleEntryRow) (pred : ScheduleEntryRow → Bool)
    (f : ScheduleEntryRow → ScheduleEntryRow) : List ScheduleEntryRow :=
  match l with
  | [] => []
  | en :: rest =>
    if pred en then f en :: rest else en :: update_first rest pred f

/-- The row inserted by the create branch. -/
def mk_entry (sid : Nat) (p : SchedulePatternData) : ScheduleEntryRow :=
  { subject_id := sid, day_of_week := p.day_of_week, start_time := p.start_time,
    end_time := p.end_time, room := p.room, class_type := p.class_type,
    week_type := p.week_type, teacher_name := p.teacher_name }

/-- One iteration of the reconciliation loop: get-or-create the subject, look
the entry up by the uniqueness key, update it (counting `updated`) or insert
a new row (counting `created`). -/
def process_pattern (uid : Nat) (st : SyncState × Nat × Nat)
    (p : SchedulePatternData) : SyncState × Nat × Nat :=
  let res := get_or_create_subject st.1 uid p.subject_name
  match find_entry res.2.entries res.1.id p with
  | some _ =>
    let entries2 :=
      update_first res.2.entries (entry_key_matches res.1.id p) (update_entry_fields p)
    ({ res.2 with entries := entries2 }, st.2.1, st.2.2 + 1)
  | none =>
    let entries2 := res.2.entries ++ [mk_entry res.1.id p]
    ({ res.2 with entries := entries2 }, st.2.1 + 1, st.2.2)

/-- `ICalSyncService.sync_user_schedule`: the guards (`ical_url` missing,
fetch failure, zero parsed events) return a structured failure before any
write; otherwise the patterns computed from the parsed events are reconciled
and the user's last-sync instant is recorded with the commit. -/
def sync_user_schedule (uid : Nat) (has_url fetch_ok : Bool)
    (events : List RawEvent) (utcnow : Int) (s : SyncState) :
    SyncState × Except String SyncReport :=
  if has_url = false then (s, Except.error "No iCal URL configured")
  else if fetch_ok = false then (s, Except.error "Failed to fetch iCal data")
  else if events.isEmpty then (s, Except.error "No events found in iCal")
  else
    let patterns := group_events_to_patterns events
    let r := patterns.foldl (process_pattern uid) (s, 0, 0)
    ({ r.1 with last_schedule_sync := some utcnow },
      Except.ok { events_parsed := events.length, patterns_found := patterns.length,
                  created := r.2.1, updated := r.2.2 })

/-- A sync state already holds a computed pattern when the subject lookup
succeeds and an entry with the pattern's uniqueness key exists for it. -/
def covers (uid : Nat) (s : SyncState) (p : SchedulePatternData) : Prop :=
  ∃ su, find_subject s uid p.subject_name = some su
    ∧ (find_entry s.entries su.id p).isSome = true

/-! ## Lemmas about reconciliation -/

theorem find_append_left {α : Type} (p : α → Bool) (l₁ l₂ : List α) (x : α)
    (h : l₁.find? p = some x) : (l₁ ++ l₂).find? p = some x := by
  induction l₁ with
  | nil => exact Option.noConfusion h
  | cons a t ih =>
    rw [List.cons_append]
    by_cases hpa : p a = true
    · rw [List.find?_cons_of_pos _ hpa] at h
      rw [List.find?_cons_of_pos _ hpa]
      exact h
    · rw [List.find?_cons_of_neg _ hpa] at h
      rw [List.find?_cons_of_neg _ hpa]
      exact ih h

theorem find_append_none {α : Type} (p : α → Bool) (l₁ l₂ : List α)
    (h : l₁.find? p = none) : (l₁ ++ l₂).find? p = l₂.find? p := by
  induction l₁ with
  | nil => rfl
  | cons a t ih =>
    rw [List.cons_append]
    by_cases hpa : p a = true
    · rw [List.find?_cons_of_pos _ hpa] at h
      exact Option.noConfusion h
    · rw [List.find?_cons_of_neg _ hpa] at h
      rw [List.find?_cons_of_neg _ hpa]
      exact ih h

theorem update_first_length (l : List ScheduleEntryRow)
    (pred : ScheduleEntryRow → Bool) (f : ScheduleEntryRow → ScheduleEntryRow) :
    (update_first l pred f).length = l.length := by
  induction l with
  | nil => rfl
  | cons en rest ih =>
    simp only [update_first]
    by_cases hp : pred en = true
    · rw [if_pos hp, List.length_cons, List.length_cons]
    · rw [if_neg hp, List.length_cons, List.length_cons, ih]

theorem find_isSome_update_first (l : List ScheduleEntryRow)
    (pred q : ScheduleEntryRow → Bool) (f : ScheduleEntryRow → ScheduleEntryRow)
    (hf : ∀ en, q (f en) = q en) :
    ((update_first l pred f).find? q).isSome = (l.find? q).isSome := by
  induction l with
  | nil => rfl
  | cons en rest ih =>
    simp only [update_first]
    by_cases hp : pred en = true
    · rw [if_pos hp]
      by_cases hq : q en = true
      · rw [List.find?_cons_of_pos _ (by rw [hf en]; exact hq),
          List.find?_cons_of_pos _ hq]
        rfl
      · rw [List.find?_cons_of_neg _ (by rw [hf en]; exact hq),
          List.find?_cons_of_neg _ hq]
    · rw [if_neg hp]
      by_cases hq : q en = true
      · rw [List.find?_cons_of_pos _ hq, List.find?_cons_of_pos _ hq]
      · rw [List.find?_cons_of_neg _ hq, List.find?_cons_of_neg _ hq]
        exact ih

theorem get_or_create_subject_finds (uid : Nat) (s : SyncState) (nm : String) :
    find_subject (get_or_create_subject s uid nm).2 uid nm
        = some (get_or_create_subject s uid nm).1
      ∧ (get_or_create_subject s uid nm).2.entries = s.entries := by
  unfold get_or_create_subject
  cases hfs : find_subject s uid nm with
  | some su => exact ⟨hfs, rfl⟩
  | none =>
    refine ⟨?_, rfl⟩
    show (s.subjects ++
        [({ id := s.next_subject_id, user_id := uid, name := nm } : SubjectRow)]).find?
        (fun su => su.user_id == uid && su.name == nm) = some _
    rw [find_append_none _ _ _ hfs]
    rw [List.find?_cons_of_pos _ (by simp)]

theorem find_subject_gco_mono (uid : Nat) (s : SyncState) (nm q : String)
    (su : SubjectRow) (h : find_subject s uid nm = some su) :
    find_subject (get_or_create_subject s uid q).2 uid nm = some su := by
  unfold get_or_create_subject
  cases hfs : find_subject s uid q with
  | some _ => exact h
  | none =>
    show (s.subjects ++ _).find? _ = some su
    exact find_append_left _ _ _ _ h

theorem process_pattern_covers (uid : Nat) (st : SyncState × Nat × Nat)
    (p : SchedulePatternData) : covers uid (process_pattern uid st p).1 p := by
  obtain ⟨hfind, hent⟩ := get_or_create_subject_finds uid st.1 p.subject_name
  simp only [process_pattern]
  rcases hgq : get_or_create_subject st.1 uid p.subject_name with ⟨su, s1⟩
  rw [hgq] at hfind hent
  cases hfe : find_entry s1.entries su.id p with
  | some en =>
    refine ⟨su, hfind, ?_⟩
    show ((update_first s1.entries (entry_key_matches su.id p)
      (update_entry_fields p)).find? (entry_key_matches su.id p)).isSome = true
    rw [find_isSome_update_first s1.entries (entry_key_matches su.id p)
      (entry_key_matches su.id p) (update_entry_fields p) (fun en => rfl)]
    show (find_entry s1.entries su.id p).isSome = true
    rw [hfe]
    rfl
  | none =>
    refine ⟨su, hfind, ?_⟩
    show ((s1.entries ++ [mk_entry su.id p]).find?
      (entry_key_matches su.id p)).isSome = true
    unfold find_entry at hfe
    rw [find_append_none _ _ _ hfe]
    rw [List.find?_cons_of_pos _ (by simp [entry_key_matches, mk_entry])]
    rfl

theorem process_pattern_preserves (uid : Nat) (st : SyncState × Nat × Nat)
    (q p : SchedulePatternData) (h : covers uid st.1 p) :
    covers uid (process_pattern uid st q).1 p := by
  obtain ⟨su, hsu, hen⟩ := h
  have hsu1 : find_subject (get_or_create_subject st.1 uid q.subject_name).2
      uid p.subject_name = some su :=
    find_subject_gco_mono uid st.1 p.subject_name _ su hsu
  have hent1 : (get_or_create_subject st.1 uid q.subject_name).2.entries
      = st.1.entries := (get_or_create_subject_finds uid st.1 q.subject_name).2
  simp only [process_pattern]
  rcases hgq : get_or_create_subject st.1 uid q.subject_name with ⟨su2, s1⟩
  rw [hgq] at hsu1 hent1
  cases hfe : find_entry s1.entries su2.id q with
  | some en =>
    refine ⟨su, hsu1, ?_⟩
    show ((update_first s1.entries (entry_key_matches su2.id q)
      (update_entry_fields q)).find? (entry_key_matches su.id p)).isSome = true
    rw [find_isSome_update_first s1.entries (entry_key_matches su2.id q)
      (entry_key_matches su.id p) (update_entry_fields q) (fun en => rfl)]
    show (find_entry s1.entries su.id p).isSome = true
    rw [hent1]
    exact hen
  | none =>
    refine ⟨su, hsu1, ?_⟩
    show ((s1.entries ++ [mk_entry su2.id q]).find?
      (entry_key_matches su.id p)).isSome = true
    rw [hent1]
    unfold find_entry at hen
    cases hx : st.1.entries.find? (entry_key_matches su.id p) with
    | none => rw [hx] at hen; simp at hen
    | some x =>
      rw [find_append_left _ _ _ _ hx]
      rfl

theorem process_pattern_covered_counts (uid : Nat) (st : SyncState × Nat × Nat)
    (p : SchedulePatternData) (h : covers uid st.1 p) :
    (process_pattern uid st p).2.1 = st.2.1
      ∧ (process_pattern uid st p).1.entries.length = st.1.entries.length := by
  obtain ⟨su, hsu, hen⟩ := h
  have hgco : get_or_create_subject st.1 uid p.subject_name = (su, st.1) := by
    unfold get_or_create_subject
    rw [hsu]
  simp only [process_pattern, hgco]
  cases hfe : find_entry st.1.entries su.id p with
  | none =>
    unfold find_entry at hen
    unfold find_entry at hfe
    rw [hfe] at hen
    simp at hen
  | some en =>
    refine ⟨rfl, ?_⟩
    show (update_first st.1.entries (entry_key_matches su.id p)
      (update_entry_fields p)).length = st.1.entries.length
    exact update_first_length _ _ _

theorem foldl_process_preserves (uid : Nat) (ps : List SchedulePatternData) :
    ∀ (st : SyncState × Nat × Nat) (p : SchedulePatternData),
      covers uid st.1 p → covers uid (ps.foldl (process_pattern uid) st).1 p := by
  induction ps with
  | nil => intro st p h; exact h
  | cons q rest ih =>
    intro st p h
    rw [List.foldl_cons]
    exact ih _ p (process_pattern_preserves uid st q p h)

theorem foldl_process_covers_all (uid : Nat) (ps : List SchedulePatternData) :
    ∀ (st : SyncState × Nat × Nat) (p : SchedulePatternData), p ∈ ps →
      covers uid (ps.foldl (process_pattern uid) st).1 p := by
  induction ps with
  | nil => intro st p h; exact absurd h (List.not_mem_nil p)
  | cons q rest ih =>
    intro st p h
    rw [List.foldl_cons]
    rcases List.mem_cons.mp h with h2 | h2
    · subst h2
      exact foldl_process_preserves uid rest _ p (process_pattern_covers uid st p)
    · exact ih _ p h2

theorem foldl_process_covered_counts (uid : Nat) (ps : List SchedulePatternData) :
    ∀ (st : SyncState × Nat × Nat), (∀ p ∈ ps, covers uid st.1 p) →
      (ps.foldl (process_pattern uid) st).2.1 = st.2.1
        ∧ (ps.foldl (process_pattern uid) st).1.entries.length
            = st.1.entries.length := by
  induction ps with
  | nil => intro st _; exact ⟨rfl, rfl⟩
  | cons q rest ih =>
    intro st h
    rw [List.foldl_cons]
    have hq := h q (List.mem_cons_self q rest)
    have hcnt := process_pattern_covered_counts uid st q hq
    have hrest : ∀ p ∈ rest, covers uid (process_pattern uid st q).1 p :=
      fun p hp => process_pattern_preserves uid st q p (h p (List.mem_cons_of_mem q hp))
    obtain ⟨h1, h2⟩ := ih (process_pattern uid st q) hrest
    exact ⟨h1.trans hcnt.1, h2.trans hcnt.2⟩

/-- The reconciliation fold of one successful sync call. -/
def sync_run (uid : Nat) (events : List RawEvent) (s : SyncState) :
    SyncState × Nat × Nat :=
  (group_events_to_patterns events).foldl (process_pattern uid) (s, 0, 0)

theorem sync_success_eq (uid : Nat) (events : List RawEvent) (utcnow : Int)
    (s : SyncState) (hne : events.isEmpty = false) :
    sync_user_schedule uid true true events utcnow s
      = ({ (sync_run uid events s).1 with last_schedule_sync := some utcnow },
          Except.ok { events_parsed := events.length,
                      patterns_found := (group_events_to_patterns events).length,
                      created := (sync_run uid events s).2.1,
                      updated := (sync_run uid events s).2.2 }) := by
  unfold sync_user_schedule sync_run
  rw [if_neg (by decide), if_neg (by decide),
    if_neg (by rw [hne]; exact Bool.false_ne_true)]

/-- C10: a sync call whose fetch succeeds but whose parse yields zero events
returns a structured failure and performs no writes: the returned state —
subjects, schedule entries, and the user's last-sync instant — is exactly the
input state. -/
theorem c10_zero_events_no_writes (uid : Nat) (utcnow : Int) (s : SyncState) :
    sync_user_schedule uid true true [] utcnow s
      = (s, Except.error "No events found in iCal") := by
  unfold sync_user_schedule
  rw [if_neg (by decide), if_neg (by decide)]
  rfl

/-- C8: two consecutive sync calls against an unchanged feed: the second call
succeeds with `created = 0` and inserts no entry row (the entries table keeps
its size) — every pattern computed from the unchanged feed matches the
pattern row the first call reconciled under the
(subject, weekday, start-time, class-category) key. -/
theorem c8_sync_twice_created_zero (uid : Nat) (events : List RawEvent)
    (utcnow1 utcnow2 : Int) (s : SyncState) (hne : events ≠ []) :
    Except.map SyncReport.created
        (sync_user_schedule uid true true events utcnow2
          (sync_user_schedule uid true true events utcnow1 s).1).2
      = Except.ok 0
    ∧ (sync_user_schedule uid true true events utcnow2
          (sync_user_schedule uid true true events utcnow1 s).1).1.entries.length
      = (sync_user_schedule uid true true events utcnow1 s).1.entries.length := by
  have hni : events.isEmpty = false := by
    cases events with
    | nil => exact absurd rfl hne
    | cons e t => rfl
  have h1 := sync_success_eq uid events utcnow1 s hni
  have hs1 : (sync_user_schedule uid true true events utcnow1 s).1
      = { (sync_run uid events s).1 with last_schedule_sync := some utcnow1 } := by
    rw [h1]
  have h2 := sync_success_eq uid events utcnow2
    ({ (sync_run uid events s).1 with last_schedule_sync := some utcnow1 }) hni
  have hcov : ∀ p ∈ group_events_to_patterns events,
      covers uid (sync_run uid events s).1 p := by
    intro p hp
    exact foldl_process_covers_all uid (group_events_to_patterns events) (s, 0, 0) p hp
  have hcov2 : ∀ p ∈ group_events_to_patterns events,
      covers uid ({ (sync_run uid events s).1 with
        last_schedule_sync := some utcnow1 }) p := by
    intro p hp
    obtain ⟨su, ha, hb⟩ := hcov p hp
    exact ⟨su, ha, hb⟩
  have hcnt := foldl_process_covered_counts uid (group_events_to_patterns events)
    ({ (sync_run uid events s).1 with last_schedule_sync := some utcnow1 }, 0, 0)
    (fun p hp => hcov2 p hp)
  constructor
  · rw [hs1, h2]
    show Except.ok ((sync_run uid events
      ({ (sync_run uid events s).1 with last_schedule_sync := some utcnow1 })).2.1)
      = Except.ok 0
    have hz : (sync_run uid events
        ({ (sync_run uid events s).1 with last_schedule_sync := some utcnow1 })).2.1
        = 0 := by
      unfold sync_run
      exact hcnt.1
    rw [hz]
  · rw [hs1, h2]
    show (sync_run uid events
      ({ (sync_run uid events s).1 with last_schedule_sync := some utcnow1 })).1.entries.length
      = (sync_run uid events s).1.entries.length
    have hl := hcnt.2
    unfold sync_run
    exact hl

/-- Witness for `c8_sync_twice_created_zero`: one event, empty initial state;
the second sync reports zero created patterns. -/
theorem c8_sync_twice_created_zero_witness :
    Except.map SyncReport.created
        (sync_user_schedule 1 true true
          [{ subject_name := "Math", class_type := "lecture", day_of_week := 0,
             start_time := "09:00", end_time := "10:30", room := none,
             teacher_name := none, week_number := 10 }] 60
          (sync_user_schedule 1 true true
            [{ subject_name := "Math", class_type := "lecture", day_of_week := 0,
               start_time := "09:00", end_time := "10:30", room := none,
               teacher_name := none, week_number := 10 }] 50
            { subjects := [], entries := [], next_subject_id := 0,
              last_schedule_sync := none }).1).2
      = Except.ok 0 :=
  (c8_sync_twice_created_zero 1
    [{ subject_name := "Math", class_type := "lecture", day_of_week := 0,
       start_time := "09:00", end_time := "10:30", room := none,
       teacher_name := none, week_number := 10 }] 50 60
    { subjects := [], entries := [], next_subject_id := 0,
      last_schedule_sync := none } (by decide)).1

end TeacherApp
